import Mathlib

/-!
A shallow embedding of `src/bun.js/bindings/webcore/HTTPHeaderField.cpp`
(WebCore's RFC 7230 header-field validator) and proofs about it.

Code units (`char16_t` in the source) are modelled as `Nat`; character
sequences (`StringView` / `String`) as `List Nat`.  All character
comparisons in the source are against concrete ASCII literals, written
here as their numeric code points.
-/

namespace WebCore

namespace RFC7230

/-- Modelled from the spec: the WTF helper `isASCIIAlpha` (ASCII letter
class) used by `isTokenCharacter(LChar)`; WTF itself is outside this
repository. -/
def isASCIIAlpha (c : Nat) : Bool :=
  decide ((0x41 ≤ c ∧ c ≤ 0x5A) ∨ (0x61 ≤ c ∧ c ≤ 0x7A))

/-- Modelled from the spec: the WTF helper `isASCIIDigit` (ASCII digit
class) used by `isTokenCharacter(LChar)`; WTF itself is outside this
repository. -/
def isASCIIDigit (c : Nat) : Bool :=
  decide (0x30 ≤ c ∧ c ≤ 0x39)

/-- `isTokenCharacter(LChar)` from the source: ASCII alphanumeric or one of
`! # $ % & ' * + - . ^ _ | ~` or the backquote (0x60). -/
def isTokenCharacterLChar (c : Nat) : Bool :=
  isASCIIAlpha c || isASCIIDigit c
    || c == 0x21 || c == 0x23 || c == 0x24
    || c == 0x25 || c == 0x26 || c == 0x27
    || c == 0x2A || c == 0x2B || c == 0x2D
    || c == 0x2E || c == 0x5E || c == 0x5F
    || c == 0x60 || c == 0x7C || c == 0x7E

/-- `isDelimiter(LChar)` from the source: one of
`( ) , / : ; < = > ? @ [ \ ] { } "`. -/
def isDelimiterLChar (c : Nat) : Bool :=
  c == 0x28 || c == 0x29 || c == 0x2C
    || c == 0x2F || c == 0x3A || c == 0x3B
    || c == 0x3C || c == 0x3D || c == 0x3E
    || c == 0x3F || c == 0x40 || c == 0x5B
    || c == 0x5C || c == 0x5D || c == 0x7B
    || c == 0x7D || c == 0x22

/-- `isTokenCharacter(char16_t)` from the source: `c < 0x80` and the
`LChar` overload holds of the truncating cast `static_cast<LChar>(c)`,
modelled as `c % 0x100`. -/
def isTokenCharacter (c : Nat) : Bool :=
  decide (c < 0x80) && isTokenCharacterLChar (c % 0x100)

/-- `isDelimiter(char16_t)` from the source. -/
def isDelimiter (c : Nat) : Bool :=
  decide (c < 0x80) && isDelimiterLChar (c % 0x100)

/-- `isVisibleCharacter` from the source. -/
def isVisibleCharacter (c : Nat) : Bool :=
  isTokenCharacter c || isDelimiter c

/-- `isWhitespace` from the source: space or horizontal tab. -/
def isWhitespace (c : Nat) : Bool :=
  c == 0x20 || c == 0x09

/-- `isInRange<min, max>` from the source. -/
def isInRange (min max c : Nat) : Bool :=
  decide (min ≤ c ∧ c ≤ max)

/-- `isOBSText` from the source: the obs-text range 0x80–0xFF. -/
def isOBSText (c : Nat) : Bool :=
  isInRange 0x80 0xFF c

/-- `isQuotedTextCharacter` from the source. -/
def isQuotedTextCharacter (c : Nat) : Bool :=
  isWhitespace c
    || c == 0x21
    || isInRange 0x23 0x5B c
    || isInRange 0x5D 0x7E c
    || isOBSText c

/-- `isQuotedPairSecondOctet` from the source. -/
def isQuotedPairSecondOctet (c : Nat) : Bool :=
  isWhitespace c
    || isVisibleCharacter c
    || isOBSText c

/-- `isCommentText` from the source. -/
def isCommentText (c : Nat) : Bool :=
  isWhitespace c
    || isInRange 0x21 0x27 c
    || isInRange 0x2A 0x5B c
    || isInRange 0x5D 0x7E c
    || isOBSText c

/-- `isValidName` from the source: reject the empty sequence, then check
every character with `isTokenCharacter` (the index loop becomes
`List.all`). -/
def isValidName (name : List Nat) : Bool :=
  if name.length == 0 then false
  else name.all isTokenCharacter

/-- The state enum local to `isValidValue` in the source. -/
inductive State where
  | OptionalWhitespace
  | Token
  | QuotedString
  | Comment
deriving DecidableEq, Repr

/-- The character-scanning loop of `isValidValue` from the source, as a
recursion over the remaining input.  The accumulator is the mutable
local state of the loop: `state`, `commentDepth`, `hadNonWhitespace`.
`none` models an early `return false`; `some` returns the loop state at
the end of input.  The source's `++i` inside the backslash branches
becomes a case split on the tail.  In the source `commentDepth` is a
`size_t`; its decrement is only executed in `Comment` state, where every
reachable configuration has `commentDepth ≥ 1` (see
`reach_commentDepth_pos_iff_comment`), so `Nat` subtraction agrees with
the machine decrement on all reachable configurations. -/
def scan : State → Nat → Bool → List Nat → Option (State × Nat × Bool)
  | state, commentDepth, hadNonWhitespace, [] =>
    some (state, commentDepth, hadNonWhitespace)
  | State.OptionalWhitespace, commentDepth, hadNonWhitespace, c :: rest =>
    if isWhitespace c then
      scan State.OptionalWhitespace commentDepth hadNonWhitespace rest
    else if isTokenCharacter c then
      scan State.Token commentDepth true rest
    else if c == 0x22 then
      scan State.QuotedString commentDepth true rest
    else if c == 0x28 then
      scan State.Comment (commentDepth + 1) true rest
    else
      none
  | State.Token, commentDepth, hadNonWhitespace, c :: rest =>
    if isTokenCharacter c then
      scan State.Token commentDepth hadNonWhitespace rest
    else
      scan State.OptionalWhitespace commentDepth hadNonWhitespace rest
  | State.QuotedString, commentDepth, hadNonWhitespace, c :: rest =>
    if c == 0x22 then
      scan State.OptionalWhitespace commentDepth hadNonWhitespace rest
    else if c == 0x5C then
      match rest with
      | [] => none
      | c2 :: rest2 =>
        if isQuotedPairSecondOctet c2 then
          scan State.QuotedString commentDepth hadNonWhitespace rest2
        else
          none
    else if isQuotedTextCharacter c then
      scan State.QuotedString commentDepth hadNonWhitespace rest
    else
      none
  | State.Comment, commentDepth, hadNonWhitespace, c :: rest =>
    if c == 0x28 then
      scan State.Comment (commentDepth + 1) hadNonWhitespace rest
    else if c == 0x29 then
      if commentDepth - 1 == 0 then
        scan State.OptionalWhitespace (commentDepth - 1) hadNonWhitespace rest
      else
        scan State.Comment (commentDepth - 1) hadNonWhitespace rest
    else if c == 0x5C then
      match rest with
      | [] => none
      | c2 :: rest2 =>
        if isQuotedPairSecondOctet c2 then
          scan State.Comment commentDepth hadNonWhitespace rest2
        else
          none
    else if isCommentText c then
      scan State.Comment commentDepth hadNonWhitespace rest
    else
      none

/-- `isValidValue` from the source: run the scan from the initial loop
state, then apply the final `switch` on the state. -/
def isValidValue (value : List Nat) : Bool :=
  match scan State.OptionalWhitespace 0 false value with
  | none => false
  | some (state, _, hadNonWhitespace) =>
    match state with
    | State.OptionalWhitespace => hadNonWhitespace
    | State.Token => hadNonWhitespace
    | State.QuotedString => false
    | State.Comment => false

/-- The configurations the `isValidValue` scanning loop passes through
when run on the input `v`: the loop state (`state`, `commentDepth`,
`hadNonWhitespace`) together with the remaining input, starting from the
initial configuration.  Each constructor mirrors one branch of `scan`
that continues scanning, with the guards of that branch. -/
inductive Reach (v : List Nat) : State → Nat → Bool → List Nat → Prop where
  | init : Reach v State.OptionalWhitespace 0 false v
  | owWhitespace {d had c rest} :
      Reach v State.OptionalWhitespace d had (c :: rest) →
      isWhitespace c = true →
      Reach v State.OptionalWhitespace d had rest
  | owToken {d had c rest} :
      Reach v State.OptionalWhitespace d had (c :: rest) →
      isWhitespace c = false → isTokenCharacter c = true →
      Reach v State.Token d true rest
  | owQuote {d had rest} :
      Reach v State.OptionalWhitespace d had (0x22 :: rest) →
      Reach v State.QuotedString d true rest
  | owComment {d had rest} :
      Reach v State.OptionalWhitespace d had (0x28 :: rest) →
      Reach v State.Comment (d + 1) true rest
  | tokenStay {d had c rest} :
      Reach v State.Token d had (c :: rest) →
      isTokenCharacter c = true →
      Reach v State.Token d had rest
  | tokenEnd {d had c rest} :
      Reach v State.Token d had (c :: rest) →
      isTokenCharacter c = false →
      Reach v State.OptionalWhitespace d had rest
  | quotedClose {d had rest} :
      Reach v State.QuotedString d had (0x22 :: rest) →
      Reach v State.OptionalWhitespace d had rest
  | quotedEscape {d had c2 rest2} :
      Reach v State.QuotedString d had (0x5C :: c2 :: rest2) →
      isQuotedPairSecondOctet c2 = true →
      Reach v State.QuotedString d had rest2
  | quotedText {d had c rest} :
      Reach v State.QuotedString d had (c :: rest) →
      (c == 0x22) = false → (c == 0x5C) = false →
      isQuotedTextCharacter c = true →
      Reach v State.QuotedString d had rest
  | commentOpen {d had rest} :
      Reach v State.Comment d had (0x28 :: rest) →
      Reach v State.Comment (d + 1) had rest
  | commentCloseLast {d had rest} :
      Reach v State.Comment d had (0x29 :: rest) →
      d - 1 = 0 →
      Reach v State.OptionalWhitespace (d - 1) had rest
  | commentCloseInner {d had rest} :
      Reach v State.Comment d had (0x29 :: rest) →
      d - 1 ≠ 0 →
      Reach v State.Comment (d - 1) had rest
  | commentEscape {d had c2 rest2} :
      Reach v State.Comment d had (0x5C :: c2 :: rest2) →
      isQuotedPairSecondOctet c2 = true →
      Reach v State.Comment d had rest2
  | commentTextStay {d had c rest} :
      Reach v State.Comment d had (c :: rest) →
      (c == 0x28) = false → (c == 0x29) = false → (c == 0x5C) = false →
      isCommentText c = true →
      Reach v State.Comment d had rest

end RFC7230

/-- Modelled from the spec: the WTF predicate `isTabOrSpace<char16_t>`
passed to `StringView::trim`; the spec calls the trimming primitive an
external collaborator stripping "horizontal whitespace (space, tab)". -/
def isTabOrSpace (c : Nat) : Bool :=
  c == 0x09 || c == 0x20

/-- Modelled from the spec: `StringView::trim(isTabOrSpace)` — WTF's
`StringView` is outside this repository; the spec says it trims
horizontal whitespace (space, tab) "from both ends of each input
independently". -/
def trim (s : List Nat) : List Nat :=
  List.rdropWhile isTabOrSpace (s.dropWhile isTabOrSpace)

/-- `HTTPHeaderField::create` from the source.  The result field is
modelled as the pair of its stored name and value.  The length-equality
test mirrors the source's storage-reuse branch (`WTFMove(unparsedName)`
vs `trimmedName.toString()`). -/
def create (unparsedName unparsedValue : List Nat) : Option (List Nat × List Nat) :=
  let trimmedName := trim unparsedName
  let trimmedValue := trim unparsedValue
  if !RFC7230.isValidName trimmedName || !RFC7230.isValidValue trimmedValue then
    none
  else
    let name := if trimmedName.length == unparsedName.length then unparsedName else trimmedName
    let value := if trimmedValue.length == unparsedValue.length then unparsedValue else trimmedValue
    some (name, value)

/-- Code points of a string literal, for concrete test inputs. -/
def strCodes (s : String) : List Nat :=
  s.toList.map Char.toNat

end WebCore

namespace WebCore

/-- A list untouched by a leading `dropWhile` is also untouched by it
after `rdropWhile`: the right trim is a prefix, hence keeps the head. -/
theorem dropWhile_rdropWhile_eq {p : Nat → Bool} {u : List Nat}
    (hu : u.dropWhile p = u) :
    (List.rdropWhile p u).dropWhile p = List.rdropWhile p u := by
  rcases hrd : List.rdropWhile p u with _ | ⟨a, w⟩
  · simp
  · have hpre : List.rdropWhile p u <+: u := List.rdropWhile_prefix p u
    rw [hrd] at hpre
    obtain ⟨t, ht⟩ := hpre
    have hpa : p a = false := by
      cases hpab : p a
      · rfl
      · exfalso
        rw [← ht, List.cons_append, List.dropWhile_cons_of_pos hpab] at hu
        have hle := (List.dropWhile_suffix p (l := w ++ t)).length_le
        have hlen := congrArg List.length hu
        simp only [List.length_cons] at hlen
        omega
    simp [List.dropWhile_cons, hpa]

/-- Trimming is idempotent. -/
theorem trim_idempotent (s : List Nat) : trim (trim s) = trim s := by
  unfold trim
  rw [dropWhile_rdropWhile_eq (List.dropWhile_idempotent isTabOrSpace s),
    List.rdropWhile_idempotent]

/-- The trimmed sequence is a sublist of the original. -/
theorem trim_sublist (s : List Nat) : List.Sublist (trim s) s := by
  have h1 : trim s <+: s.dropWhile isTabOrSpace := List.rdropWhile_prefix _ _
  have h2 : s.dropWhile isTabOrSpace <:+ s := List.dropWhile_suffix _
  exact h1.sublist.trans h2.sublist

/-- If trimming preserves the length, it preserves the list: this is why
the storage-reuse branch of `create` is unobservable. -/
theorem trim_eq_of_length {s : List Nat} (h : (trim s).length = s.length) :
    trim s = s :=
  (trim_sublist s).eq_of_length h

/-- `create` is exactly: trim both inputs, validate both, and on success
store the trimmed sequences. -/
theorem create_eq_check (n v : List Nat) :
    create n v =
      if RFC7230.isValidName (trim n) && RFC7230.isValidValue (trim v)
      then some (trim n, trim v) else none := by
  unfold create
  cases hA : RFC7230.isValidName (trim n) <;> cases hB : RFC7230.isValidValue (trim v) <;>
    simp [hA, hB]
  exact ⟨fun hl => (trim_eq_of_length hl).symm, fun hl => (trim_eq_of_length hl).symm⟩

/-- Claim C1: `create` first trims space and tab from both ends of each
input independently, runs the name validator on the trimmed name and the
value validator on the trimmed value, returns `none` if either fails,
and otherwise returns the field storing exactly the trimmed sequences;
hence the result is identical to calling it on already-trimmed inputs. -/
theorem create_trim_transparent (n v : List Nat) :
    (create n v =
      if RFC7230.isValidName (trim n) && RFC7230.isValidValue (trim v)
      then some (trim n, trim v) else none)
    ∧ create n v = create (trim n) (trim v) := by
  refine ⟨create_eq_check n v, ?_⟩
  rw [create_eq_check n v, create_eq_check (trim n) (trim v),
    trim_idempotent n, trim_idempotent v]

/-- Claim C6: the name validator accepts exactly the non-empty sequences
all of whose characters are token characters; a single non-token
character anywhere rejects the whole name. -/
theorem isValidName_iff (n : List Nat) :
    RFC7230.isValidName n = true ↔
      n ≠ [] ∧ ∀ c ∈ n, RFC7230.isTokenCharacter c = true := by
  unfold RFC7230.isValidName
  cases n with
  | nil => simp
  | cons a t => simp [List.all_eq_true]

/-- Instantiation of `isValidName_iff`: the one-character name `"X"` is
accepted. -/
theorem isValidName_iff_witness : RFC7230.isValidName [0x58] = true :=
  (isValidName_iff [0x58]).mpr (by decide)

/-- Claim C8: `create` is deterministic (and, being a pure function of
its arguments in this model, side-effect-free): equal inputs give equal
results, and two successful results agree on stored name and value. -/
theorem create_deterministic (n v n2 v2 : List Nat) (hn : n = n2) (hv : v = v2) :
    create n v = create n2 v2 ∧
      ∀ p q, create n v = some p → create n2 v2 = some q → p = q := by
  subst hn
  subst hv
  exact ⟨rfl, fun p q hp hq => Option.some.inj (hp.symm.trans hq)⟩

/-- Instantiation of `create_deterministic` at the name `"X"` and value
`"y"`. -/
theorem create_deterministic_witness :
    create [0x58] [0x79] = create [0x58] [0x79] :=
  (create_deterministic [0x58] [0x79] [0x58] [0x79] rfl rfl).1

end WebCore

namespace WebCore.RFC7230

/-- Scanning a run of whitespace in OptionalWhitespace state changes
nothing: the state, depth and flag come out as they went in. -/
theorem scan_all_whitespace (w : List Nat) (d : Nat) (had : Bool)
    (hw : w.all isWhitespace = true) :
    scan State.OptionalWhitespace d had w
      = some (State.OptionalWhitespace, d, had) := by
  induction w with
  | nil => rfl
  | cons c rest ih =>
    simp only [List.all_cons, Bool.and_eq_true] at hw
    simp [scan, hw.1, ih hw.2]

/-- Claim C4: after the final character the value validator accepts
exactly when the end state is OptionalWhitespace or Token and the
hadNonWhitespace flag is true; ending inside QuotedString or Comment
(an unterminated construct) always rejects, and an empty or
all-whitespace value is rejected because the flag stays false. -/
theorem isValidValue_termination (v : List Nat) (st : State) (d : Nat) (had : Bool)
    (h : scan State.OptionalWhitespace 0 false v = some (st, d, had)) :
    (isValidValue v = true ↔
      ((st = State.OptionalWhitespace ∨ st = State.Token) ∧ had = true))
    ∧ (v.all isWhitespace = true → isValidValue v = false) := by
  constructor
  · unfold isValidValue
    rw [h]
    cases st <;> simp
  · intro hw
    unfold isValidValue
    rw [scan_all_whitespace v 0 false hw]

/-- Instantiation of `isValidValue_termination`: the two-space value is
rejected. -/
theorem isValidValue_termination_witness : isValidValue [0x20, 0x20] = false :=
  (isValidValue_termination [0x20, 0x20] State.OptionalWhitespace 0 false
    (by decide)).2 (by decide)

/-- One-step unfolding of the QuotedString arm of `scan`, valid for a
remaining input of any shape. -/
theorem scan_quotedString_cons (d : Nat) (had : Bool) (c : Nat) (rest : List Nat) :
    scan State.QuotedString d had (c :: rest) =
      if c == 0x22 then scan State.OptionalWhitespace d had rest
      else if c == 0x5C then
        (match rest with
         | [] => none
         | c2 :: rest2 =>
           if isQuotedPairSecondOctet c2 then scan State.QuotedString d had rest2
           else none)
      else if isQuotedTextCharacter c then scan State.QuotedString d had rest
      else none := by
  cases rest <;> rfl

/-- One-step unfolding of the Comment arm of `scan`, valid for a
remaining input of any shape. -/
theorem scan_comment_cons (d : Nat) (had : Bool) (c : Nat) (rest : List Nat) :
    scan State.Comment d had (c :: rest) =
      if c == 0x28 then scan State.Comment (d + 1) had rest
      else if c == 0x29 then
        (if d - 1 == 0 then scan State.OptionalWhitespace (d - 1) had rest
         else scan State.Comment (d - 1) had rest)
      else if c == 0x5C then
        (match rest with
         | [] => none
         | c2 :: rest2 =>
           if isQuotedPairSecondOctet c2 then scan State.Comment d had rest2
           else none)
      else if isCommentText c then scan State.Comment d had rest
      else none := by
  cases rest <;> rfl

/-- Claim C5: inside a quoted string or a comment, a backslash consumes
exactly one following character, which must satisfy the quoted-pair
second-octet class or the value is rejected; a backslash as the last
character of the input is a rejection — the scan consumes its input
structurally and never reads past the end. -/
theorem backslash_escape (st : State) (d : Nat) (had : Bool) (rest : List Nat)
    (h : st = State.QuotedString ∨ st = State.Comment) :
    scan st d had (0x5C :: rest) =
      match rest with
      | [] => none
      | c2 :: rest2 =>
        if isQuotedPairSecondOctet c2 then scan st d had rest2 else none := by
  rcases h with h | h <;> subst h <;> cases rest <;> simp [scan]

/-- Instantiation of `backslash_escape`: a quoted string ending in a
lone backslash is rejected. -/
theorem backslash_escape_witness : scan State.QuotedString 0 true [0x5C] = none :=
  backslash_escape State.QuotedString 0 true [] (Or.inl rfl)

/-- Claim C7: comments nest to arbitrary depth tracked by the single
counter: an opening parenthesis inside a comment increments the depth, a
closing parenthesis decrements it and returns to OptionalWhitespace
exactly when the depth reaches zero; the nested-comment example value is
accepted and the unterminated one rejected. -/
theorem comment_nesting (d : Nat) (had : Bool) (rest : List Nat) (hd : 0 < d) :
    (scan State.Comment d had (0x28 :: rest) = scan State.Comment (d + 1) had rest)
    ∧ (scan State.Comment d had (0x29 :: rest) =
        if d - 1 == 0 then scan State.OptionalWhitespace (d - 1) had rest
        else scan State.Comment (d - 1) had rest)
    ∧ (d - 1 < d)
    ∧ isValidValue (WebCore.strCodes "token (a nested (comment) here) token") = true
    ∧ isValidValue (WebCore.strCodes "token (unterminated") = false := by
  refine ⟨?_, ?_, by omega, by decide, by decide⟩
  · simp +decide [scan_comment_cons]
  · simp +decide [scan_comment_cons]

/-- Instantiation of `comment_nesting`: closing the last open comment
returns the scan to OptionalWhitespace at depth zero. -/
theorem comment_nesting_witness :
    scan State.Comment 1 false (0x29 :: []) =
      (if (1 : Nat) - 1 == 0 then scan State.OptionalWhitespace (1 - 1) false []
       else scan State.Comment (1 - 1) false []) :=
  (comment_nesting 1 false [] (by decide)).2.1

/-- Claim C9: in every configuration reachable by the value scan, the
comment depth is positive exactly when the state is Comment; hence the
decrement on ')' in Comment state never underflows, and whenever '(' is
read in OptionalWhitespace state the depth is exactly zero, as the
source's assertion at that branch demands. -/
theorem reach_commentDepth_pos_iff_comment
    {v : List Nat} {st : State} {d : Nat} {had : Bool} {rest : List Nat}
    (h : Reach v st d had rest) :
    0 < d ↔ st = State.Comment := by
  induction h with
  | init => simp
  | owWhitespace h1 hws ih => exact ih
  | owToken h1 hws htok ih => simpa using ih
  | owQuote h1 ih => simpa using ih
  | owComment h1 ih => simp
  | tokenStay h1 htok ih => exact ih
  | tokenEnd h1 htok ih => simpa using ih
  | quotedClose h1 ih => simpa using ih
  | quotedEscape h1 hqp ih => exact ih
  | quotedText h1 h22 h5C hqt ih => exact ih
  | commentOpen h1 ih => simp
  | commentCloseLast h1 hd0 ih => simp [hd0]
  | commentCloseInner h1 hd0 ih => simp only [iff_true]; omega
  | commentEscape h1 hqp ih => exact ih
  | commentTextStay h1 h28 h29 h5C hct ih => exact ih

/-- Instantiation of `reach_commentDepth_pos_iff_comment` at the
configuration reached after scanning "(". -/
theorem reach_commentDepth_witness : 0 < 1 ↔ State.Comment = State.Comment :=
  @reach_commentDepth_pos_iff_comment [0x28] State.Comment 1 true []
    (Reach.owComment Reach.init)

/-- Soundness of `Reach`: the scan of `v` from the initial configuration
computes the same result as the scan from any configuration it
reaches. -/
theorem scan_eq_of_reach {v : List Nat} {st : State} {d : Nat} {had : Bool}
    {rest : List Nat} (h : Reach v st d had rest) :
    scan State.OptionalWhitespace 0 false v = scan st d had rest := by
  induction h with
  | init => rfl
  | owWhitespace h1 hws ih => rw [ih]; simp +decide [scan, hws]
  | owToken h1 hws htok ih => rw [ih]; simp +decide [scan, hws, htok]
  | owQuote h1 ih => rw [ih]; simp +decide [scan]
  | owComment h1 ih => rw [ih]; simp +decide [scan]
  | tokenStay h1 htok ih => rw [ih]; simp +decide [scan, htok]
  | tokenEnd h1 htok ih => rw [ih]; simp +decide [scan, htok]
  | quotedClose h1 ih => rw [ih]; simp +decide [scan_quotedString_cons]
  | quotedEscape h1 hqp ih => rw [ih]; simp +decide [scan_quotedString_cons, hqp]
  | quotedText h1 h22 h5C hqt ih =>
    rw [ih]; simp +decide [scan_quotedString_cons, h22, h5C, hqt]
  | commentOpen h1 ih => rw [ih]; simp +decide [scan_comment_cons]
  | commentCloseLast h1 hd0 ih => rw [ih]; simp +decide [scan_comment_cons, hd0]
  | commentCloseInner h1 hd0 ih => rw [ih]; simp +decide [scan_comment_cons, hd0]
  | commentEscape h1 hqp ih => rw [ih]; simp +decide [scan_comment_cons, hqp]
  | commentTextStay h1 h28 h29 h5C hct ih =>
    rw [ih]; simp +decide [scan_comment_cons, h28, h29, h5C, hct]

/-- Claim C2 counterexample: the value built of the code units 0x61
('a') and 0x100 contains a code unit ≥ 0x100 and yet validates, and the
corresponding field is created; the Token state consumes the 0x100
unvalidated while transitioning to OptionalWhitespace.  The claim
demands that every such value be rejected. -/
theorem wide_unit_accepted_counterexample :
    isValidValue [0x61, 0x100] = true
      ∧ WebCore.create [0x61] [0x61, 0x100] = some ([0x61], [0x61, 0x100]) := by
  decide

/-- Claim C2 amended: a code unit ≥ 0x100 is never a token character,
delimiter, obs-text, whitespace, quoted-text character, quoted-pair
second octet, or comment text, and the scanner rejects the moment it
reads such a code unit in OptionalWhitespace, QuotedString or Comment
state; only the Token state passes over one, consuming it on the
transition to OptionalWhitespace, so a value containing a code unit
≥ 0x100 directly after a token character can still be accepted. -/
theorem wide_unit_rejected_by_classifiers (c : Nat) (hc : 0x100 ≤ c) :
    (isTokenCharacter c = false ∧ isDelimiter c = false
      ∧ isOBSText c = false ∧ isWhitespace c = false
      ∧ isQuotedTextCharacter c = false
      ∧ isQuotedPairSecondOctet c = false ∧ isCommentText c = false)
    ∧ (∀ (st : State) (d : Nat) (had : Bool) (rest : List Nat),
        st ≠ State.Token → scan st d had (c :: rest) = none) := by
  have h80 : decide (c < 0x80) = false := decide_eq_false (by omega)
  have htok : isTokenCharacter c = false := by simp [isTokenCharacter, h80]
  have hdel : isDelimiter c = false := by simp [isDelimiter, h80]
  have hobs : isOBSText c = false := by
    simp only [isOBSText, isInRange, decide_eq_false_iff_not]
    omega
  have hws : isWhitespace c = false := by
    simp only [isWhitespace, Bool.or_eq_false_iff, beq_eq_false_iff_ne]
    omega
  have hqt : isQuotedTextCharacter c = false := by
    simp [isQuotedTextCharacter, isInRange, hws, hobs]
    omega
  have hqp : isQuotedPairSecondOctet c = false := by
    simp [isQuotedPairSecondOctet, isVisibleCharacter, hws, hobs, htok, hdel]
  have hct : isCommentText c = false := by
    simp [isCommentText, isInRange, hws, hobs]
    omega
  have h22 : (c == 0x22) = false := by
    simp only [beq_eq_false_iff_ne]
    omega
  have h28 : (c == 0x28) = false := by
    simp only [beq_eq_false_iff_ne]
    omega
  have h29 : (c == 0x29) = false := by
    simp only [beq_eq_false_iff_ne]
    omega
  have h5C : (c == 0x5C) = false := by
    simp only [beq_eq_false_iff_ne]
    omega
  refine ⟨⟨htok, hdel, hobs, hws, hqt, hqp, hct⟩, ?_⟩
  intro st d had rest hst
  cases st with
  | OptionalWhitespace => simp [scan, hws, htok, h22, h28]
  | Token => exact absurd rfl hst
  | QuotedString => simp [scan_quotedString_cons, h22, h5C, hqt]
  | Comment => simp [scan_comment_cons, h28, h29, h5C, hct]

/-- Instantiation of `wide_unit_rejected_by_classifiers`: the scan
rejects 0x100 read in QuotedString state. -/
theorem wide_unit_rejected_witness :
    scan State.QuotedString 0 true [0x100] = none :=
  (wide_unit_rejected_by_classifiers 0x100 (by decide)).2
    State.QuotedString 0 true [] (by decide)

/-- Claim C3 counterexample: the values "a;" and "a;b" — a token
terminated by the delimiter ';', which is not whitespace, not a token
character, not '"', and not '(' — are accepted, because the Token state
consumes the terminating character during its transition to
OptionalWhitespace without validating it.  The claim demands that a
value whose token is terminated by a delimiter be rejected. -/
theorem token_boundary_counterexample :
    isValidValue [0x61, 0x3B] = true ∧ isValidValue [0x61, 0x3B, 0x62] = true := by
  decide

/-- Claim C3 amended: when the scanner is in Token state and reads a
character that is not a token character, it transitions to
OptionalWhitespace and consumes that character without any validity
check, so the scan continues regardless of which character ended the
token (delimiters and control characters included). -/
theorem token_boundary_consumes (c d : Nat) (had : Bool) (rest : List Nat)
    (h : isTokenCharacter c = false) :
    scan State.Token d had (c :: rest) = scan State.OptionalWhitespace d had rest := by
  simp [scan, h]

/-- Instantiation of `token_boundary_consumes` at the delimiter ';'. -/
theorem token_boundary_consumes_witness :
    scan State.Token 0 true (0x3B :: []) = scan State.OptionalWhitespace 0 true [] :=
  token_boundary_consumes 0x3B 0 true [] (by decide)

set_option maxRecDepth 8192 in
/-- Claim C10: the wide (`char16_t`) and narrow (`LChar`) classifier
overloads agree on every code unit below 0x100, and on 0x80–0xFF both
are false. -/
theorem classifier_overloads_agree (c : Nat) (h : c < 0x100) :
    (isTokenCharacter c = isTokenCharacterLChar c
      ∧ isDelimiter c = isDelimiterLChar c)
    ∧ (0x80 ≤ c → isTokenCharacter c = false ∧ isDelimiter c = false) := by
  have H : ∀ b : Fin 0x100,
      (isTokenCharacter b.val = isTokenCharacterLChar b.val
        ∧ isDelimiter b.val = isDelimiterLChar b.val)
      ∧ (0x80 ≤ b.val →
          isTokenCharacter b.val = false ∧ isDelimiter b.val = false) := by
    decide
  exact H ⟨c, h⟩

/-- Instantiation of `classifier_overloads_agree` at 0x85: both
overloads of both classifiers reject an obs-text-range unit. -/
theorem classifier_overloads_agree_witness :
    isTokenCharacter 0x85 = false ∧ isDelimiter 0x85 = false :=
  (classifier_overloads_agree 0x85 (by decide)).2 (by decide)

end WebCore.RFC7230
